import Mathlib

/-!
Shallow embedding of the SlothRanking program (ranking.py): a composite
player-rating calculator combining an Elo rating (updated from reported
match results), an externally fetched Aligulac rating and a ladder MMR.
Python floats are modelled by real numbers, Python ints by integers,
Python lists by Lean lists; the in-place mutation of Player objects is
modelled by explicit state passing over a roster list.  A Python runtime
exception (IndexError) is modelled by the error branch of Except.
-/

open Real

/-- Embedding of the module constant K_FACTOR = 32 (k-factor for elo rating
changes). -/
def K_FACTOR : ℝ := 32

/-- Embedding of the module constant ELO_WEIGHT = 0.5. -/
def ELO_WEIGHT : ℝ := 0.5

/-- Embedding of the module constant ALIG_WEIGHT = 0.3. -/
def ALIG_WEIGHT : ℝ := 0.3

/-- Embedding of the module constant MMR_WEIGHT = 0.2. -/
def MMR_WEIGHT : ℝ := 0.2

/-- Embedding of the Player class: name, aligulac id, bnet id, Elo rating,
and the fields initialised by the constructor (aligRating = 1, mmr = 1,
sr = 0).  Ratings are modelled as real numbers, sr (produced by a round)
as an integer. -/
structure Player where
  name : String
  alig : String
  bnet : String
  elo : ℝ
  aligRating : ℝ
  mmr : ℝ
  sr : ℤ

instance : Inhabited Player := ⟨⟨"", "", "", 0, 1, 1, 0⟩⟩

/-- Embedding of the Player constructor Player(name, alig, bnet, elo):
aligRating and mmr start at the sentinel 1, sr at 0. -/
def mkPlayer (name alig bnet : String) (elo : ℝ) : Player :=
  ⟨name, alig, bnet, elo, 1, 1, 0⟩

/-- Embedding of expected(elo1, elo2) = 1 / (1 + 10 ** ((elo2 - elo1) / 400)),
the expected score of player 1 against player 2. -/
noncomputable def expected (elo1 elo2 : ℝ) : ℝ :=
  1 / (1 + (10 : ℝ) ^ ((elo2 - elo1) / 400))

/-- Embedding of adjustElo(oldElo, exp, result, k=K_FACTOR) =
oldElo + k * (result - exp). -/
noncomputable def adjustElo (oldElo exp result : ℝ) (k : ℝ := K_FACTOR) : ℝ :=
  oldElo + k * (result - exp)

/-- Embedding of result(p1, p2, winner): computes the expected score once,
then updates both players from that snapshot; winner = 1 means p1 won,
winner = 2 means p2 won, any other value is a no-op (early return in the
source).  Returns the pair of updated players. -/
noncomputable def result (p1 p2 : Player) (winner : ℤ) : Player × Player :=
  let ex := expected p1.elo p2.elo
  if winner = 1 then
    ({ p1 with elo := adjustElo p1.elo ex 1 },
     { p2 with elo := adjustElo p2.elo (1 - ex) 0 })
  else if winner = 2 then
    ({ p1 with elo := adjustElo p1.elo ex 0 },
     { p2 with elo := adjustElo p2.elo (1 - ex) 1 })
  else (p1, p2)

/-- Embedding of Python str.split() with no argument: split on runs of
whitespace, discarding empty pieces.  Auxiliary recursion over the
character list, with an accumulator for the current (reversed) token. -/
def splitWsAux : List Char → List Char → List String
  | [], acc => if acc.isEmpty then [] else [String.mk acc.reverse]
  | c :: cs, acc =>
    if c.isWhitespace then
      if acc.isEmpty then splitWsAux cs []
      else String.mk acc.reverse :: splitWsAux cs []
    else splitWsAux cs (c :: acc)

/-- Embedding of resString.split() in readResultString. -/
def pysplit (s : String) : List String := splitWsAux s.data []

/-- Embedding of the player-lookup loop of readResultString:
for p in playerList: if resArray[0] == p.name: p1 = p
elif resArray[2] == p.name: p2 = p.
The bound players are tracked as indices into the roster; an out-of-range
access of resArray raises IndexError, modelled as the error branch. -/
def scan (resArray : List String) :
    List Player → Nat → Option Nat → Option Nat →
      Except String (Option Nat × Option Nat)
  | [], _, o1, o2 => Except.ok (o1, o2)
  | p :: ps, i, o1, o2 =>
    match resArray[0]? with
    | none => Except.error "IndexError"
    | some t0 =>
      if p.name = t0 then scan resArray ps (i + 1) (some i) o2
      else
        match resArray[2]? with
        | none => Except.error "IndexError"
        | some t2 =>
          if p.name = t2 then scan resArray ps (i + 1) o1 (some i)
          else scan resArray ps (i + 1) o1 o2

/-- Embedding of the two mutations p1.elo = ...; p2.elo = ... performed by
result(p1, p2, winner) on the roster, with the two players addressed by
index. -/
noncomputable def applyResultAt (pl : List Player) (i j : Nat) (winner : ℤ) :
    List Player :=
  let r := result (pl.getD i default) (pl.getD j default) winner
  (pl.set i r.1).set j r.2

/-- Embedding of the body of readResultString after the split: the
token-count check (which only prints and does NOT return), the lookup
loop, the not-found check, and the dispatch on the relation symbol.
Returns the updated roster together with the printed error messages, or an
IndexError. -/
noncomputable def processTokens (resArray : List String) (pl : List Player) :
    Except String (List Player × List String) :=
  let msgs := if resArray.length ≠ 3 then ["Input not recognized"] else []
  match scan resArray pl 0 none none with
  | Except.error e => Except.error e
  | Except.ok (some i, some j) =>
    match resArray[1]? with
    | none => Except.error "IndexError"
    | some t1 =>
      if t1 = ">" then Except.ok (applyResultAt pl i j 1, msgs)
      else if t1 = "<" then Except.ok (applyResultAt pl i j 2, msgs)
      else Except.ok (pl, msgs ++
        ["Improper use of result string - format should be \"ID1 > ID2\" or \"ID1 < ID2\""])
  | Except.ok (_, _) => Except.ok (pl, msgs ++
      ["One of the players was not found, please try again."])

/-- Embedding of readResultString(resString, playerList). -/
noncomputable def readResultString (resString : String) (pl : List Player) :
    Except String (List Player × List String) :=
  processTokens (pysplit resString) pl

/-- Index of the LAST element of the roster (starting at offset i)
satisfying f, if any: the value a Python loop that keeps overwriting a
variable on every match ends up with. -/
def lastIdxFrom (f : Player → Bool) : List Player → Nat → Option Nat
  | [], _ => none
  | p :: ps, i => (lastIdxFrom f ps (i + 1)).or (cond (f p) (some i) none)

/-- Index of the last element of the roster satisfying f, if any. -/
def lastIdx (f : Player → Bool) (pl : List Player) : Option Nat :=
  lastIdxFrom f pl 0

/-- Embedding of Python round() (banker's rounding, round half to even):
on a tie the result is the double of the half rounded, which lands on the
even neighbour; otherwise the nearest integer. -/
noncomputable def pyRound (x : ℝ) : ℤ :=
  if Int.fract x = 1 / 2 then 2 * round (x / 2) else round x

/-- Embedding of one iteration of setSRs:
p.sr = round((p.aligRating * ALIG_WEIGHT) + (p.mmr * MMR_WEIGHT)
+ round((p.elo * ELO_WEIGHT))). -/
noncomputable def setSR (p : Player) : Player :=
  { p with
    sr := pyRound (p.aligRating * ALIG_WEIGHT + p.mmr * MMR_WEIGHT +
      (pyRound (p.elo * ELO_WEIGHT) : ℝ)) }

/-- Embedding of setSRs(playerList), which recomputes sr for every player. -/
noncomputable def setSRs (pl : List Player) : List Player := pl.map setSR

/-- Composite formula as worded by the spec: composite = round(statRating *
statWeight + ladderRating * ladderWeight + round(eloRating * eloWeight))
with the default weights 0.3, 0.2 and 0.5; stated separately from setSR so
the code can be compared against it. -/
noncomputable def computeComposite_spec
    (statRating ladderRating eloRating : ℝ) : ℤ :=
  pyRound (statRating * 0.3 + ladderRating * 0.2 +
    (pyRound (eloRating * 0.5) : ℝ))

/-- Embedding of the roster effect of printRatingList(playerList):
playerList.sort(key=lambda x: x.sr, reverse=True), a stable descending
sort by sr performed in place; the printed table is not modelled. -/
def printRatingList (pl : List Player) : List Player :=
  pl.mergeSort (fun a b => decide (b.sr ≤ a.sr))

/-- Embedding of savePlayersToFile(playerList, filename): one line per
player in roster order, carrying name, aligulac id, bnet id and Elo; the
file system is abstracted to the written sequence of records. -/
def savePlayersToFile (pl : List Player) : List (String × String × String × ℝ) :=
  pl.map (fun p => (p.name, p.alig, p.bnet, p.elo))

/-- State of the interactive main() loop: the roster (the single mutable
list shared by every command), what was written on exit (if anything),
and whether the loop finished or raised. -/
structure Session where
  roster : List Player
  saved : Option (List (String × String × String × ℝ))
  finished : Bool
  crashed : Bool

/-- Embedding of one iteration of the main() loop: "print" recomputes all
sr fields then sorts the roster in place; "exit" writes the roster and
stops; "forcequit" stops without writing; anything else is handed to
readResultString (a raised IndexError aborts the loop). -/
noncomputable def mainStep (st : Session) (inp : String) : Session :=
  if inp = "print" then
    { st with roster := printRatingList (setSRs st.roster) }
  else if inp = "exit" then
    { st with saved := some (savePlayersToFile st.roster), finished := true }
  else if inp = "forcequit" then
    { st with finished := true }
  else
    match readResultString inp st.roster with
    | Except.error _ => { st with crashed := true }
    | Except.ok (pl, _) => { st with roster := pl }

/-- Roster used for the duplicate-name scenarios: two players named Foo
with different Elo ratings and one named Bar. -/
noncomputable def dupRoster : List Player :=
  [mkPlayer "Foo" "a1" "b1" 2000, mkPlayer "Foo" "a2" "b2" 1000,
   mkPlayer "Bar" "a3" "b3" 3000]

/-- Roster used for the malformed-input scenarios: Foo and Bar, both at
Elo 2000. -/
noncomputable def badRoster : List Player :=
  [mkPlayer "Foo" "1" "2" 2000, mkPlayer "Bar" "3" "4" 2000]

/-! Helper lemmas about the expected-score function and the update rule. -/

lemma ten_rpow_pos (x : ℝ) : 0 < (10 : ℝ) ^ x :=
  Real.rpow_pos_of_pos (by norm_num) x

lemma expected_pos (a b : ℝ) : 0 < expected a b := by
  have h := ten_rpow_pos ((b - a) / 400)
  unfold expected
  positivity

lemma expected_lt_one (a b : ℝ) : expected a b < 1 := by
  have h := ten_rpow_pos ((b - a) / 400)
  unfold expected
  rw [div_lt_one (by linarith)]
  linarith

lemma expected_add_symm (a b : ℝ) : expected a b + expected b a = 1 := by
  unfold expected
  have hyx : (a - b) / 400 = -((b - a) / 400) := by ring
  rw [hyx, Real.rpow_neg (by norm_num)]
  have h := ten_rpow_pos ((b - a) / 400)
  field_simp
  ring

lemma expected_symm_eq (a b : ℝ) : expected b a = 1 - expected a b := by
  have h := expected_add_symm a b
  linarith

lemma expected_self (a : ℝ) : expected a a = 1 / 2 := by
  unfold expected
  rw [sub_self, zero_div, Real.rpow_zero]
  norm_num

lemma expected_eq_half_iff (a b : ℝ) : expected a b = 1 / 2 ↔ a = b := by
  unfold expected
  have h := ten_rpow_pos ((b - a) / 400)
  constructor
  · intro hx
    have h10 : (1 : ℝ) < 10 := by norm_num
    have ht : (10 : ℝ) ^ ((b - a) / 400) = 1 := by
      field_simp at hx
      linarith
    have h0 : (10 : ℝ) ^ ((b - a) / 400) = (10 : ℝ) ^ (0 : ℝ) := by
      rw [ht, Real.rpow_zero]
    have hle : (b - a) / 400 ≤ 0 :=
      (Real.rpow_le_rpow_left_iff h10).mp (le_of_eq h0)
    have hge : (0 : ℝ) ≤ (b - a) / 400 :=
      (Real.rpow_le_rpow_left_iff h10).mp (ge_of_eq h0)
    have : (b - a) / 400 = 0 := le_antisymm hle hge
    have : b - a = 0 := by linarith [this]
    linarith
  · intro hab
    subst hab
    rw [sub_self, zero_div, Real.rpow_zero]
    norm_num

lemma result_winner1_fst (p1 p2 : Player) :
    (result p1 p2 1).1.elo = p1.elo + K_FACTOR * (1 - expected p1.elo p2.elo) := by
  simp [result, adjustElo]

lemma result_winner1_snd (p1 p2 : Player) :
    (result p1 p2 1).2.elo = p2.elo + K_FACTOR * (0 - (1 - expected p1.elo p2.elo)) := by
  simp [result, adjustElo]

lemma result_winner2_fst (p1 p2 : Player) :
    (result p1 p2 2).1.elo = p1.elo + K_FACTOR * (0 - expected p1.elo p2.elo) := by
  simp [result, adjustElo]

lemma result_winner2_snd (p1 p2 : Player) :
    (result p1 p2 2).2.elo = p2.elo + K_FACTOR * (1 - (1 - expected p1.elo p2.elo)) := by
  simp [result, adjustElo]

/-! Helper lemmas about the lookup loop. -/

lemma scan_self (t0 t1 : String) (pl : List Player) :
    ∀ (i : Nat) (o1 : Option Nat),
      ∃ o1', scan [t0, t1, t0] pl i o1 none = Except.ok (o1', none) := by
  induction pl with
  | nil => intro i o1; exact ⟨o1, rfl⟩
  | cons p ps ih =>
    intro i o1
    by_cases h : p.name = t0
    · simpa [scan, h] using ih (i + 1) (some i)
    · simpa [scan, h] using ih (i + 1) o1

lemma processTokens_self (t0 t1 : String) (pl : List Player) :
    processTokens [t0, t1, t0] pl =
      Except.ok (pl, ["One of the players was not found, please try again."]) := by
  obtain ⟨o1, h⟩ := scan_self t0 t1 pl 0 none
  unfold processTokens
  rw [h]
  cases o1 <;> simp

lemma scan_cons (t0 t1 t2 : String) (p : Player) (ps : List Player)
    (i : Nat) (o1 o2 : Option Nat) :
    scan [t0, t1, t2] (p :: ps) i o1 o2 =
      if p.name = t0 then scan [t0, t1, t2] ps (i + 1) (some i) o2
      else if p.name = t2 then scan [t0, t1, t2] ps (i + 1) o1 (some i)
      else scan [t0, t1, t2] ps (i + 1) o1 o2 := rfl

lemma scan_lastIdx (t0 t1 t2 : String) (pl : List Player) :
    ∀ (i : Nat) (o1 o2 : Option Nat),
      scan [t0, t1, t2] pl i o1 o2 =
        Except.ok
          ((lastIdxFrom (fun p => decide (p.name = t0)) pl i).or o1,
           (lastIdxFrom (fun p => decide (p.name = t2 ∧ ¬ p.name = t0)) pl i).or o2) := by
  induction pl with
  | nil => intro i o1 o2; simp [scan, lastIdxFrom]
  | cons p ps ih =>
    intro i o1 o2
    by_cases h0 : p.name = t0
    · rw [scan_cons, if_pos h0, ih (i + 1) (some i) o2]
      have d0 : decide (p.name = t0) = true := decide_eq_true h0
      simp [lastIdxFrom, d0, Option.or_assoc]
    · by_cases h2 : p.name = t2
      · rw [scan_cons, if_neg h0, if_pos h2, ih (i + 1) o1 (some i)]
        have d0 : decide (p.name = t0) = false := decide_eq_false h0
        have d2 : decide (p.name = t2) = true := decide_eq_true h2
        simp [lastIdxFrom, d0, d2, Option.or_assoc]
      · rw [scan_cons, if_neg h0, if_neg h2, ih (i + 1) o1 o2]
        have d0 : decide (p.name = t0) = false := decide_eq_false h0
        have d2 : decide (p.name = t2) = false := decide_eq_false h2
        simp [lastIdxFrom, d0, d2]

/-! Helper lemmas about rounding, sr recomputation and sorting. -/

lemma pyRound_intCast (n : ℤ) : pyRound (n : ℝ) = n := by
  unfold pyRound
  rw [Int.fract_intCast, if_neg (by norm_num), round_intCast]

lemma setSRs_map_elo (pl : List Player) :
    (setSRs pl).map Player.elo = pl.map Player.elo := by
  unfold setSRs
  rw [List.map_map]
  rfl

lemma printRatingList_perm (pl : List Player) :
    List.Perm (printRatingList pl) pl :=
  List.mergeSort_perm pl _

lemma printRatingList_sorted (pl : List Player) :
    (printRatingList pl).Pairwise (fun a b : Player => b.sr ≤ a.sr) := by
  have h := @List.sorted_mergeSort Player
      (fun a b : Player => decide (b.sr ≤ a.sr))
      (fun a b c hab hbc => by
        simp only [decide_eq_true_eq] at hab hbc ⊢
        exact le_trans hbc hab)
      (fun a b => by
        simp only [Bool.or_eq_true, decide_eq_true_eq]
        exact le_total b.sr a.sr)
      pl
  exact h.imp (fun hab => of_decide_eq_true hab)

/-! Claim theorems. -/

/-- Claim C1: for a match applied with winner in {1, 2}, each player's new
Elo is oldRating + K * (actualScore - expectedScoreForThatSide) with K = 32,
winner score 1 and loser score 0, both sides using the pre-update
expected-score snapshot; and if both players start at 2000.0 and player 1
wins, the new ratings are exactly 2016.0 and 1984.0. -/
theorem elo_update_formula :
    (∀ p1 p2 : Player,
      (result p1 p2 1).1.elo = p1.elo + K_FACTOR * (1 - expected p1.elo p2.elo) ∧
      (result p1 p2 1).2.elo = p2.elo + K_FACTOR * (0 - expected p2.elo p1.elo) ∧
      (result p1 p2 2).1.elo = p1.elo + K_FACTOR * (0 - expected p1.elo p2.elo) ∧
      (result p1 p2 2).2.elo = p2.elo + K_FACTOR * (1 - expected p2.elo p1.elo)) ∧
    (result (mkPlayer "A" "" "" 2000) (mkPlayer "B" "" "" 2000) 1).1.elo = 2016 ∧
    (result (mkPlayer "A" "" "" 2000) (mkPlayer "B" "" "" 2000) 1).2.elo = 1984 := by
  refine ⟨fun p1 p2 => ?_, ?_, ?_⟩
  · refine ⟨result_winner1_fst p1 p2, ?_, result_winner2_fst p1 p2, ?_⟩
    · rw [result_winner1_snd, expected_symm_eq p1.elo p2.elo]
    · rw [result_winner2_snd, expected_symm_eq p1.elo p2.elo]
  · rw [result_winner1_fst]
    simp only [mkPlayer]
    rw [expected_self]
    norm_num [K_FACTOR]
  · rw [result_winner1_snd]
    simp only [mkPlayer]
    rw [expected_self]
    norm_num [K_FACTOR]

/-- Claim C3: expected scores of the two sides sum to 1, the expected score
of equal ratings is exactly 0.5, the function is the pure formula
1 / (1 + 10 ^ ((b - a) / 400)), and its value lies strictly between 0
and 1. -/
theorem expected_score_props :
    ∀ a b : ℝ,
      expected a b + expected b a = 1 ∧
      expected a a = 1 / 2 ∧
      expected a b = 1 / (1 + (10 : ℝ) ^ ((b - a) / 400)) ∧
      0 < expected a b ∧ expected a b < 1 := by
  intro a b
  exact ⟨expected_add_symm a b, expected_self a, rfl,
    expected_pos a b, expected_lt_one a b⟩

/-- Claim C4: when player 1 wins an applied match, player 1's Elo strictly
increases and player 2's Elo changes by the exactly opposite amount. -/
theorem winner_gains_loser_loses :
    ∀ p1 p2 : Player,
      p1.elo < (result p1 p2 1).1.elo ∧
      (result p1 p2 1).1.elo - p1.elo = -((result p1 p2 1).2.elo - p2.elo) := by
  intro p1 p2
  have hlt := expected_lt_one p1.elo p2.elo
  rw [result_winner1_fst, result_winner1_snd]
  constructor
  · have : (0 : ℝ) < K_FACTOR * (1 - expected p1.elo p2.elo) := by
      have : (0 : ℝ) < 1 - expected p1.elo p2.elo := by linarith
      have hk : (0 : ℝ) < K_FACTOR := by norm_num [K_FACTOR]
      positivity
    linarith
  · ring

/-- Claim C5 counterexample: with starting ratings 2400 and 2000, the delta
applied to player 1 when player 1 wins (32/11) is NOT the negation of the
delta applied to player 1 when player 2 wins (-320/11), refuting the
claimed mirror-image relation for unequal starting ratings. -/
theorem mirror_delta_counterexample :
    ¬ ((result (mkPlayer "A" "" "" 2400) (mkPlayer "B" "" "" 2000) 1).1.elo -
          (mkPlayer "A" "" "" 2400).elo =
        -((result (mkPlayer "A" "" "" 2400) (mkPlayer "B" "" "" 2000) 2).1.elo -
          (mkPlayer "A" "" "" 2400).elo)) := by
  rw [result_winner1_fst, result_winner2_fst]
  simp only [mkPlayer]
  have hexp : expected (2400 : ℝ) 2000 = 10 / 11 := by
    unfold expected
    have h1 : ((2000 : ℝ) - 2400) / 400 = -1 := by norm_num
    rw [h1, Real.rpow_neg_one]
    norm_num
  rw [hexp]
  norm_num [K_FACTOR]

/-- Claim C5 amended: from fixed starting ratings, the delta on player 1
under "player 1 wins" and the delta on player 1 under "player 2 wins"
always differ by exactly K = 32; they are negations of each other exactly
when the two starting ratings are equal (expected score one half), not in
general. -/
theorem mirror_delta_amended :
    ∀ p1 p2 : Player,
      ((result p1 p2 1).1.elo - p1.elo) - ((result p1 p2 2).1.elo - p1.elo)
        = K_FACTOR ∧
      (((result p1 p2 1).1.elo - p1.elo)
          = -((result p1 p2 2).1.elo - p1.elo) ↔ p1.elo = p2.elo) := by
  intro p1 p2
  rw [result_winner1_fst, result_winner2_fst]
  constructor
  · ring
  · constructor
    · intro h
      have hk : (K_FACTOR : ℝ) ≠ 0 := by norm_num [K_FACTOR]
      have hhalf : expected p1.elo p2.elo = 1 / 2 := by
        have h2 : K_FACTOR * (1 - expected p1.elo p2.elo)
            = K_FACTOR * expected p1.elo p2.elo := by linarith
        have := mul_left_cancel₀ hk h2
        linarith
      exact (expected_eq_half_iff p1.elo p2.elo).mp hhalf
    · intro h
      have hhalf : expected p1.elo p2.elo = 1 / 2 :=
        (expected_eq_half_iff p1.elo p2.elo).mpr h
      rw [hhalf]
      ring

/-- Claim C2: the sr set by the aggregation step equals the spec formula
round(statRating * 0.3 + ladderRating * 0.2 + round(eloRating * 0.5))
under the default weights, with the Elo term rounded before the outer
rounding; for statRating 2000, ladderRating 4000, eloRating 2100 the inner
round gives 1050 and the composite is exactly 2450. -/
theorem composite_formula :
    (∀ p : Player, (setSR p).sr = computeComposite_spec p.aligRating p.mmr p.elo) ∧
    pyRound ((2100 : ℝ) * ELO_WEIGHT) = 1050 ∧
    computeComposite_spec 2000 4000 2100 = 2450 := by
  refine ⟨fun p => rfl, ?_, ?_⟩
  · have h : ((2100 : ℝ) * ELO_WEIGHT) = ((1050 : ℤ) : ℝ) := by norm_num [ELO_WEIGHT]
    rw [h, pyRound_intCast]
  · unfold computeComposite_spec
    have h1 : ((2100 : ℝ) * 0.5) = ((1050 : ℤ) : ℝ) := by norm_num
    rw [h1, pyRound_intCast]
    have h2 : ((2000 : ℝ) * 0.3 + 4000 * 0.2 + ((1050 : ℤ) : ℝ)) = ((2450 : ℤ) : ℝ) := by
      push_cast
      norm_num
    rw [h2, pyRound_intCast]

/-- Claim C6 divergence: the wrong-token-count branch only prints and does
not return.  On the 4-token line "Foo > Bar x" with Foo and Bar in the
roster the code reports "Input not recognized" AND still applies the Elo
update (2016 / 1984); on the 1-token line "Foo" the lookup loop reads
resArray[2] and raises IndexError instead of recovering. -/
theorem malformed_input_divergence :
    readResultString "Foo > Bar x" badRoster
        = Except.ok (applyResultAt badRoster 0 1 1, ["Input not recognized"]) ∧
    (applyResultAt badRoster 0 1 1).map Player.elo = [2016, 1984] ∧
    readResultString "Foo" badRoster = Except.error "IndexError" := by
  refine ⟨rfl, ?_, rfl⟩
  have hmap : (applyResultAt badRoster 0 1 1).map Player.elo
      = [2000 + K_FACTOR * (1 - expected 2000 2000),
         2000 + K_FACTOR * (0 - (1 - expected 2000 2000))] := rfl
  rw [hmap, expected_self]
  norm_num [K_FACTOR]

/-- Claim C7 counterexample: in a roster whose records 0 and 1 are both
named Foo (Elo 2000 and 1000), applying "Foo > Bar" leaves record 0
untouched and changes record 1: the lookup did NOT resolve to the first
matching record. -/
theorem first_match_counterexample :
    readResultString "Foo > Bar" dupRoster
        = Except.ok (applyResultAt dupRoster 1 2 1, []) ∧
    (applyResultAt dupRoster 1 2 1).getD 0 default = mkPlayer "Foo" "a1" "b1" 2000 ∧
    ¬ ((applyResultAt dupRoster 1 2 1).getD 1 default).elo = 1000 := by
  refine ⟨rfl, rfl, ?_⟩
  have he : ((applyResultAt dupRoster 1 2 1).getD 1 default).elo
      = 1000 + K_FACTOR * (1 - expected 1000 3000) := rfl
  rw [he]
  have h1 := expected_lt_one (1000 : ℝ) 3000
  intro hc
  norm_num [K_FACTOR] at hc
  linarith

/-- Claim C7 amended: a match-result lookup by name resolves to the LAST
matching record in roster order (each loop iteration overwrites the
binding), the second side additionally requiring that its name differ from
the first token; concretely, "Foo > Bar" on a roster with two Foos binds
index 1, whose Elo is the one updated. -/
theorem last_match_wins :
    (∀ (t0 t1 t2 : String) (pl : List Player),
      scan [t0, t1, t2] pl 0 none none =
        Except.ok (lastIdx (fun p => decide (p.name = t0)) pl,
          lastIdx (fun p => decide (p.name = t2 ∧ ¬ p.name = t0)) pl)) ∧
    lastIdx (fun p => decide (p.name = "Foo")) dupRoster = some 1 ∧
    readResultString "Foo > Bar" dupRoster
        = Except.ok (applyResultAt dupRoster 1 2 1, []) := by
  refine ⟨fun t0 t1 t2 pl => ?_, rfl, rfl⟩
  rw [scan_lastIdx t0 t1 t2 pl 0 none none]
  simp [lastIdx, Option.or_none]

/-- Claim C8: a single applied match changes each participant's Elo by at
most the K-factor 32 in absolute value, for every winner argument; and the
other core roster operations leave every Elo unchanged (sr recomputation
preserves the elo of every record, and the ranking sort only permutes the
records). -/
theorem elo_change_bounded :
    (∀ (p1 p2 : Player) (w : ℤ),
      |(result p1 p2 w).1.elo - p1.elo| ≤ K_FACTOR ∧
      |(result p1 p2 w).2.elo - p2.elo| ≤ K_FACTOR) ∧
    (∀ pl : List Player, (setSRs pl).map Player.elo = pl.map Player.elo) ∧
    (∀ pl : List Player, List.Perm (printRatingList pl) pl) := by
  refine ⟨fun p1 p2 w => ?_, setSRs_map_elo, printRatingList_perm⟩
  have h0 := expected_pos p1.elo p2.elo
  have h1 := expected_lt_one p1.elo p2.elo
  by_cases hw1 : w = 1
  · subst hw1
    constructor
    · rw [result_winner1_fst, abs_le]
      norm_num [K_FACTOR]
      constructor <;> linarith
    · rw [result_winner1_snd, abs_le]
      norm_num [K_FACTOR]
      constructor <;> linarith
  · by_cases hw2 : w = 2
    · subst hw2
      constructor
      · rw [result_winner2_fst, abs_le]
        norm_num [K_FACTOR]
        constructor <;> linarith
      · rw [result_winner2_snd, abs_le]
        norm_num [K_FACTOR]
        constructor <;> linarith
    · constructor
      · simp [result, hw1, hw2]
        norm_num [K_FACTOR]
      · simp [result, hw1, hw2]
        norm_num [K_FACTOR]

/-- Claim C9: the "print" command recomputes sr for every record and then
sorts the roster list itself into descending sr order (a permutation of
the records, none of which is modified by the sort), and the new order is
what the session keeps: a subsequent "exit" saves the records in exactly
that sorted order. -/
theorem print_sorts_roster_in_place :
    ∀ st : Session,
      (mainStep st "print").roster = printRatingList (setSRs st.roster) ∧
      List.Perm ((mainStep st "print").roster) (setSRs st.roster) ∧
      ((mainStep st "print").roster).Pairwise (fun a b : Player => b.sr ≤ a.sr) ∧
      (mainStep (mainStep st "print") "exit").saved
        = some (savePlayersToFile (printRatingList (setSRs st.roster))) := by
  intro st
  refine ⟨rfl, ?_, ?_, rfl⟩
  · exact printRatingList_perm (setSRs st.roster)
  · exact printRatingList_sorted (setSRs st.roster)

/-- Claim C10: on a result line whose first and third tokens carry the same
player name, the second binding is never made (side 2 is only tried when
side 1 did not match), so the code reports the player-not-found error and
mutates nothing; concretely "Foo > Foo" on a roster containing Foo. -/
theorem self_match_rejected :
    (∀ (t0 t1 : String) (pl : List Player),
      processTokens [t0, t1, t0] pl =
        Except.ok (pl, ["One of the players was not found, please try again."])) ∧
    readResultString "Foo > Foo" [mkPlayer "Foo" "f" "b" 2000]
      = Except.ok ([mkPlayer "Foo" "f" "b" 2000],
          ["One of the players was not found, please try again."]) := by
  exact ⟨fun t0 t1 pl => processTokens_self t0 t1 pl, rfl⟩
